import Mathlib

/-!
Verification of the sales-pipeline ingestion and transformation core.

The development shallowly embeds the data pipeline of the dashboard:
column resolution, row normalization (month parsing and numeric
fallbacks), temporal expansion of monthly figures into a 52-week
series, account reconstruction with derived base totals, time-bucket
and key aggregation, the scenario engine, and the YTD/MTD/forecast
calculator.  Numeric cell values and financial figures are modelled
over the real numbers; string operations mirror the JavaScript
semantics (case-sensitive substring containment for `includes`,
truthiness for `||` defaults).
-/

namespace SalesPipeline

/-- JavaScript `String.prototype.toLowerCase` restricted to the ASCII
headers and month names handled by the pipeline. -/
def toLowerStr (s : String) : String :=
  String.mk (s.data.map Char.toLower)

/-- JavaScript `String.prototype.includes`: case-sensitive substring
containment (the empty string is contained in every string). -/
def jsIncludes (s sub : String) : Bool :=
  decide (sub.data <:+: s.data)

/-- A spreadsheet cell value as seen by the row normalizer: either a
string or a numeric cell.  Numeric month and year cells are integral
in every workbook the pipeline accepts, so numbers are modelled as
integers. -/
inductive JsVal where
  | vStr (s : String)
  | vNum (n : ℤ)
deriving DecidableEq

/-- JavaScript truthiness for cell values: empty strings and zero are
falsy. -/
def jsTruthy (v : JsVal) : Bool :=
  match v with
  | .vStr s => !s.isEmpty
  | .vNum n => n != 0

/-- Characters skipped by `parseInt` before the number. -/
def jsSpace (c : Char) : Bool :=
  (c == ' ') || (c == '\t') || (c == '\n') || (c == '\r')

/-- Accumulate a decimal digit string into an integer. -/
def digitsToInt (ds : List Char) : ℤ :=
  ds.foldl (fun acc c => 10 * acc + ((c.toNat : ℤ) - 48)) 0

/-- JavaScript `parseInt` on a string (decimal): skip leading
whitespace, read an optional sign and a maximal run of digits; `none`
models the `NaN` result when no digits are found. -/
def parseIntJs (s : String) : Option ℤ :=
  let cs := s.data.dropWhile jsSpace
  match cs with
  | '-' :: t =>
      let ds := t.takeWhile Char.isDigit
      if ds.isEmpty then none else some (-(digitsToInt ds))
  | '+' :: t =>
      let ds := t.takeWhile Char.isDigit
      if ds.isEmpty then none else some (digitsToInt ds)
  | _ =>
      let ds := cs.takeWhile Char.isDigit
      if ds.isEmpty then none else some (digitsToInt ds)

/-- `parseInt` applied to a cell value: a numeric cell is first
coerced to its decimal string, which for an integral cell parses back
to the same integer. -/
def parseIntOf (v : JsVal) : Option ℤ :=
  match v with
  | .vStr s => parseIntJs s
  | .vNum n => some n

/-- The month-name table of `parseMonthFromText`, in source order
(abbreviations first, then full names). -/
def monthMap : List (String × ℤ) :=
  [("jan", 1), ("feb", 2), ("mar", 3), ("apr", 4),
   ("may", 5), ("jun", 6), ("jul", 7), ("aug", 8),
   ("sep", 9), ("oct", 10), ("nov", 11), ("dec", 12),
   ("january", 1), ("february", 2), ("march", 3), ("april", 4),
   ("june", 6), ("july", 7), ("august", 8),
   ("september", 9), ("october", 10), ("november", 11), ("december", 12)]

/-- `parseMonthFromText` of the richer variant: for a string cell, the
first month name that occurs as a substring of the lowercased input
wins; otherwise the cell is parsed as an integer and accepted when in
1..12; otherwise the current calendar month (a parameter here) is
returned. -/
def parseMonthFromText (v : JsVal) (currentMonth : ℤ) : ℤ :=
  let byName : Option ℤ :=
    match v with
    | .vStr s => (monthMap.find? (fun p => jsIncludes (toLowerStr s) p.1)).map (fun p => p.2)
    | .vNum _ => none
  match byName with
  | some n => n
  | none =>
      match parseIntOf v with
      | some num => if 1 ≤ num ∧ num ≤ 12 then num else currentMonth
      | none => currentMonth

/-- The normalizer defaults a missing or falsy start-month cell to the
literal string August before parsing. -/
def forecastedStartOf (cell : Option JsVal) : JsVal :=
  match cell with
  | none => .vStr "August"
  | some v => if jsTruthy v then v else .vStr "August"

/-- The `startMonth` produced by the row normalizer from the
Forecasted TXN Start (Month) cell. -/
def startMonthOf (cell : Option JsVal) (currentMonth : ℤ) : ℤ :=
  parseMonthFromText (forecastedStartOf cell) currentMonth

/-- The canonical headers of the richer column mapping, in source
order. -/
def mappedColumns1 : List String :=
  ["Account Name", "Industry", "Sales Category", "Sales Stage", "City",
   "Territory Code", "Sales Agent", "Committed Monthly Volume",
   "Committed FY Volume", "Monthly Sales Forecast", "Team Designation",
   "Forecasted TXN Start (Month)", "Forecasted TXN Start (Year)",
   "Years of Engagement", "Sales Remarks / Contact History"]

/-- Richer variant: a canonical header counts as found when some
present header contains it or it contains that header, by
case-sensitive substring containment. -/
def foundColumns1 (fileColumns : List String) : List String :=
  mappedColumns1.filter (fun col =>
    fileColumns.any (fun fileCol => jsIncludes fileCol col || jsIncludes col fileCol))

/-- Richer variant column resolution: fewer than 2 recognized headers
rejects, carrying the matched headers and the available headers. -/
def resolveColumns1 (fileColumns : List String) : Except (List String × List String) Unit :=
  if (foundColumns1 fileColumns).length < 2 then
    .error (foundColumns1 fileColumns, fileColumns)
  else
    .ok ()

/-- The canonical headers of the second (leaner) column mapping, in
source order. -/
def mappedColumns2 : List String :=
  ["Account Name", "Industry", "Sales Stage", "Area", "Sales Rep",
   "Committed Monthly Vol", "Monthly Sales Report Prep"]

/-- Second variant: a canonical header counts as found only when it is
exactly equal to a present header (Array.includes). -/
def foundColumns2 (fileColumns : List String) : List String :=
  mappedColumns2.filter (fun col => fileColumns.contains col)

/-- Second variant column resolution: fewer than 3 recognized headers
rejects, carrying only the matched headers. -/
def resolveColumns2 (fileColumns : List String) : Except (List String) Unit :=
  if (foundColumns2 fileColumns).length < 3 then
    .error (foundColumns2 fileColumns)
  else
    .ok ()

/-- Modelled from the claim wording for comparison with the code: the
case-insensitive substring matcher the claim attributes to the column
resolver (a canonical header matches when some present header contains
it or it contains that header, case-insensitively). -/
def specFoundColumnsCI (mapped fileColumns : List String) : List String :=
  mapped.filter (fun col =>
    fileColumns.any (fun fileCol =>
      jsIncludes (toLowerStr fileCol) (toLowerStr col) ||
      jsIncludes (toLowerStr col) (toLowerStr fileCol)))

/-- A normalized account row as stored in `accountsData` by the richer
variant before weekly expansion. -/
structure AccountData where
  account : String
  industry : String
  salesCategory : String
  city : String
  territoryCode : String
  agent : String
  status : String
  teamDesignation : String
  monthlyRevenue : ℝ
  monthlyVolume : ℝ
  startMonth : ℤ
  startYear : ℤ
  yearsOfEngagement : ℤ
  endYear : ℤ

/-- One weekly observation of the canonical dataset. -/
structure WeeklyRecord where
  week : ℕ
  year : ℤ
  account : String
  industry : String
  salesCategory : String
  city : String
  area : String
  territoryCode : String
  agent : String
  status : String
  revenue : ℝ
  volume : ℝ
  startMonth : ℤ
  startYear : ℤ
  yearsOfEngagement : ℤ
  endYear : ℤ

/-- The month a week index belongs to: `Math.ceil(w / 4.345)`. -/
def weekMonth (w : ℕ) : ℤ :=
  ⌈(w : ℚ) / 4.345⌉

/-- The fixed sinusoidal seasonality applied to every contributing
week. -/
noncomputable def seasonalFactor (w : ℕ) : ℝ :=
  1 + 0.12 * Real.sin (2 * Real.pi * w / 52)

/-- The record that the temporal expander of the richer variant pushes
for account `acc` at week `w`: the year is pinned to the start year of
the account, the contribution window gates revenue and volume, and
contributing weeks carry the smoothed seasonal figures. -/
noncomputable def weeklyFor (acc : AccountData) (w : ℕ) : WeeklyRecord :=
  let currentYear := acc.startYear
  let shouldContribute := weekMonth w ≥ acc.startMonth ∧ currentYear ≤ acc.endYear
  { week := w
    year := currentYear
    account := acc.account
    industry := acc.industry
    salesCategory := acc.salesCategory
    city := acc.city
    area := acc.teamDesignation
    territoryCode := acc.territoryCode
    agent := acc.agent
    status := acc.status
    revenue := if shouldContribute then acc.monthlyRevenue / 4.345 * seasonalFactor w else 0
    volume := if shouldContribute then acc.monthlyVolume / 4.345 * seasonalFactor w else 0
    startMonth := acc.startMonth
    startYear := acc.startYear
    yearsOfEngagement := acc.yearsOfEngagement
    endYear := acc.endYear }

/-- The full expansion loop: for every week 1..52 (outer loop), one
record per normalized account (inner loop). -/
noncomputable def expandAll (accs : List AccountData) : List WeeklyRecord :=
  ((List.range' 1 52).map (fun w => accs.map (fun acc => weeklyFor acc w))).flatten

/-- The `info.totalRows` field of the parse result: the length of the
expanded weekly collection. -/
noncomputable def infoTotalRows (accs : List AccountData) : ℕ :=
  (expandAll accs).length

/-- Fallback policy for the monthly revenue figure (richer variant):
`cellParse` is the cleaned `parseFloat` of the Monthly Sales Forecast
cell when present (`none` when the cell is absent or parses to `NaN`),
and `rand` is the `Math.random()` draw consumed when no positive
parsed value is available. -/
noncomputable def monthlyRevenueOf (cellParse : Option ℝ) (rand : ℝ) : ℝ :=
  match cellParse with
  | some v => if 0 < v then v else 500000 + rand * 2000000
  | none => 500000 + rand * 2000000

/-- Fallback policy for the monthly volume figure (richer variant). -/
noncomputable def monthlyVolumeOf (cellParse : Option ℝ) (rand : ℝ) : ℝ :=
  match cellParse with
  | some v => if 0 < v then v else 50 + rand * 500
  | none => 50 + rand * 500

/-- An account of the parse result, rebuilt from the weekly data: one
per distinct account name, categorical attributes from the first
record bearing the name, base figures derived afterwards as sums. -/
structure AccountSummary where
  id : ℕ
  name : String
  industry : String
  salesCategory : String
  city : String
  area : String
  territoryCode : String
  agent : String
  status : String
  baseRev : ℝ
  baseVol : ℝ
  startMonth : ℤ
  startYear : ℤ
  yearsOfEngagement : ℤ
  endYear : ℤ

/-- The account shell inserted into the account map when a name is
first encountered (base figures still zero; the id is assigned by the
enumeration in `buildAccounts`, matching the size-based id of the
source at first insertion). -/
noncomputable def shellOf (d : WeeklyRecord) : AccountSummary :=
  { id := 0
    name := d.account
    industry := d.industry
    salesCategory := d.salesCategory
    city := d.city
    area := d.area
    territoryCode := d.territoryCode
    agent := d.agent
    status := d.status
    baseRev := 0
    baseVol := 0
    startMonth := d.startMonth
    startYear := d.startYear
    yearsOfEngagement := d.yearsOfEngagement
    endYear := d.endYear }

/-- The account map build: the first record with a given name creates
the shell, later records with the same name are ignored.  Modelled by
keeping the head record and recursing on the remaining records of
other names. -/
noncomputable def accountShells : List WeeklyRecord → List AccountSummary
  | [] => []
  | d :: rest => shellOf d :: accountShells (rest.filter (fun x => decide (x.account ≠ d.account)))
termination_by l => l.length
decreasing_by
  simp only [List.length_cons]
  exact Nat.lt_succ_of_le (List.length_filter_le _ rest)

/-- Total revenue of the weekly records bearing a given account
name. -/
noncomputable def sumRevFor (weekly : List WeeklyRecord) (n : String) : ℝ :=
  ((weekly.filter (fun d => decide (d.account = n))).map (fun d => d.revenue)).sum

/-- Total volume of the weekly records bearing a given account
name. -/
noncomputable def sumVolFor (weekly : List WeeklyRecord) (n : String) : ℝ :=
  ((weekly.filter (fun d => decide (d.account = n))).map (fun d => d.volume)).sum

/-- The accounts of the parse result: shells in first-occurrence
order, ids assigned by position, base figures derived once as the sum
of the weekly records with the same account name. -/
noncomputable def buildAccounts (weekly : List WeeklyRecord) : List AccountSummary :=
  (accountShells weekly).enum.map (fun p =>
    { p.2 with
      id := p.1 + 1
      baseRev := sumRevFor weekly p.2.name
      baseVol := sumVolFor weekly p.2.name })

/-- First-occurrence deduplication, as performed by spreading a Set
built from an array. -/
def dedupFirst {α} [DecidableEq α] : List α → List α
  | [] => []
  | x :: xs => x :: dedupFirst (xs.filter (fun y => decide (y ≠ x)))
termination_by l => l.length
decreasing_by
  simp only [List.length_cons]
  exact Nat.lt_succ_of_le (List.length_filter_le _ xs)

/-- `Math.max` over a spread array; the pipeline only applies it to
nonempty year lists (an empty workbook is rejected earlier), so the
empty case carries a junk value standing in for minus infinity. -/
def maxJs : List ℤ → ℤ
  | [] => 0
  | h :: t => t.foldl max h

/-- The distinct years of the weekly data, in first-occurrence order
(the subsequent JavaScript sort does not affect the maximum taken from
the list). -/
noncomputable def yearsOf (weekly : List WeeklyRecord) : List ℤ :=
  dedupFirst (weekly.map (fun d => d.year))

/-- The `meta.year` field of the parse result. -/
noncomputable def metaYear (weekly : List WeeklyRecord) : ℤ :=
  maxJs (yearsOf weekly)

/-- A weekly aggregation bucket. -/
structure WeekBucket where
  week : ℕ
  revenue : ℝ
  volume : ℝ

/-- A monthly aggregation bucket (richer dashboard: carries the month
name as well). -/
structure MonthBucket where
  month : ℕ
  monthName : String
  revenue : ℝ
  volume : ℝ

/-- The yearly aggregation bucket; `year = none` models the N/A tag of
an empty input. -/
structure YearBucket where
  year : Option ℤ
  revenue : ℝ
  volume : ℝ

/-- The week-to-month clamp used by the monthly aggregation. -/
def weeklyToMonth (w : ℕ) : ℕ :=
  (min 12 (max 1 (weekMonth w))).toNat

/-- Month names for bucket labels. -/
def monthNames : List String :=
  ["January", "February", "March", "April", "May", "June",
   "July", "August", "September", "October", "November", "December"]

/-- `getMonthName`: 1-based lookup with an Unknown fallback. -/
def getMonthName (monthNum : ℕ) : String :=
  (monthNames.get? (monthNum - 1)).getD "Unknown"

/-- Insert a (key, revenue, volume) contribution into a keyed bucket
list: an existing key accumulates in place, a new key is appended
(JavaScript object keyed by a number). -/
noncomputable def upsert (key : ℕ) (rev vol : ℝ) : List (ℕ × ℝ × ℝ) → List (ℕ × ℝ × ℝ)
  | [] => [(key, rev, vol)]
  | (k, r, v) :: rest =>
      if k = key then (k, r + rev, v + vol) :: rest
      else (k, r, v) :: upsert key rev vol rest

/-- Accumulate all records into keyed buckets, keyed by a function of
the record. -/
noncomputable def bucketsBy (keyOf : WeeklyRecord → ℕ) (data : List WeeklyRecord) : List (ℕ × ℝ × ℝ) :=
  data.foldl (fun acc d => upsert (keyOf d) d.revenue d.volume acc) []

/-- The Weekly branch of `aggregate`: one bucket per distinct week,
sorted ascending by week. -/
noncomputable def aggregateWeekly (data : List WeeklyRecord) : List WeekBucket :=
  ((bucketsBy (fun d => d.week) data).map (fun p => WeekBucket.mk p.1 p.2.1 p.2.2)).mergeSort
    (fun a b => decide (a.week ≤ b.week))

/-- The Monthly branch of `aggregate`: one bucket per clamped month of
the week, with its human-readable name, sorted ascending by month. -/
noncomputable def aggregateMonthly (data : List WeeklyRecord) : List MonthBucket :=
  ((bucketsBy (fun d => weeklyToMonth d.week) data).map
      (fun p => MonthBucket.mk p.1 (getMonthName p.1) p.2.1 p.2.2)).mergeSort
    (fun a b => decide (a.month ≤ b.month))

/-- The Yearly branch of `aggregate`: a single bucket summing
everything, tagged with the year of the first record. -/
noncomputable def aggregateYearly (data : List WeeklyRecord) : List YearBucket :=
  [{ year := (data.head?).map (fun d => d.year)
     revenue := (data.map (fun d => d.revenue)).sum
     volume := (data.map (fun d => d.volume)).sum }]

/-- Scenario parameters (`opts` of `applyScenario`). -/
structure ScenarioOpts where
  revenueMultiplier : ℝ
  volumeMultiplier : ℝ
  mixShiftIndustry : Option String
  mixShiftPct : ℝ

/-- The per-record scenario transform: global multipliers always
apply; a truthy mix-shift industry equal to the record industry
additionally scales revenue by `1 + pct/100` and volume by
`1 + pct*0.6/100`. -/
noncomputable def scenarioRecord (opts : ScenarioOpts) (d : WeeklyRecord) : WeeklyRecord :=
  let rev := d.revenue * opts.revenueMultiplier
  let vol := d.volume * opts.volumeMultiplier
  match opts.mixShiftIndustry with
  | some s =>
      if s ≠ "" ∧ d.industry = s then
        { d with revenue := rev * (1 + opts.mixShiftPct / 100),
                 volume := vol * (1 + opts.mixShiftPct * 0.6 / 100) }
      else
        { d with revenue := rev, volume := vol }
  | none => { d with revenue := rev, volume := vol }

/-- The scenario engine: a pure map over the weekly collection. -/
noncomputable def applyScenario (data : List WeeklyRecord) (opts : ScenarioOpts) : List WeeklyRecord :=
  data.map (scenarioRecord opts)

/-- Year-to-date revenue: total over monthly buckets up to the
cutoff. -/
noncomputable def ytdRevenue (monthly : List MonthBucket) (cutoff : ℤ) : ℝ :=
  ((monthly.filter (fun m => decide ((m.month : ℤ) ≤ cutoff))).map (fun m => m.revenue)).sum

/-- Year-to-date volume. -/
noncomputable def ytdVolume (monthly : List MonthBucket) (cutoff : ℤ) : ℝ :=
  ((monthly.filter (fun m => decide ((m.month : ℤ) ≤ cutoff))).map (fun m => m.volume)).sum

/-- Month-to-date revenue: the bucket at the cutoff month, or zero. -/
noncomputable def mtdRevenue (monthly : List MonthBucket) (cutoff : ℤ) : ℝ :=
  match monthly.find? (fun m => decide ((m.month : ℤ) = cutoff)) with
  | some b => b.revenue
  | none => 0

/-- Month-to-date volume. -/
noncomputable def mtdVolume (monthly : List MonthBucket) (cutoff : ℤ) : ℝ :=
  match monthly.find? (fun m => decide ((m.month : ℤ) = cutoff)) with
  | some b => b.volume
  | none => 0

/-- Average revenue per elapsed month, guarded against a nonpositive
cutoff. -/
noncomputable def avgPerMonthRev (monthly : List MonthBucket) (cutoff : ℤ) : ℝ :=
  if cutoff > 0 then ytdRevenue monthly cutoff / (cutoff : ℝ) else 0

/-- Average volume per elapsed month. -/
noncomputable def avgPerMonthVol (monthly : List MonthBucket) (cutoff : ℤ) : ℝ :=
  if cutoff > 0 then ytdVolume monthly cutoff / (cutoff : ℝ) else 0

/-- Run-rate revenue forecast. -/
noncomputable def forecastRevenue (monthly : List MonthBucket) (cutoff : ℤ) (adjPct : ℝ) : ℝ :=
  ytdRevenue monthly cutoff +
    ((12 - cutoff : ℤ) : ℝ) * avgPerMonthRev monthly cutoff * (1 + adjPct / 100)

/-- Run-rate volume forecast. -/
noncomputable def forecastVolume (monthly : List MonthBucket) (cutoff : ℤ) (adjPct : ℝ) : ℝ :=
  ytdVolume monthly cutoff +
    ((12 - cutoff : ℤ) : ℝ) * avgPerMonthVol monthly cutoff * (1 + adjPct / 100)

/-- A concrete normalized account used to instantiate the theorems on
the temporal expander. -/
noncomputable def demoAcc : AccountData :=
  { account := "Acme"
    industry := "Retail"
    salesCategory := "New"
    city := "Manila"
    territoryCode := "T01"
    agent := "Cruz"
    status := "Won"
    teamDesignation := "NCR"
    monthlyRevenue := 4345
    monthlyVolume := 869
    startMonth := 1
    startYear := 2025
    yearsOfEngagement := 2
    endYear := 2026 }

/-- A second concrete account with a different start year. -/
noncomputable def demoAcc2 : AccountData :=
  { account := "Borealis"
    industry := "FMCG"
    salesCategory := "Renewal"
    city := "Cebu"
    territoryCode := "T02"
    agent := "Flores"
    status := "Prospect"
    teamDesignation := "Visayas"
    monthlyRevenue := 1000
    monthlyVolume := 100
    startMonth := 3
    startYear := 2026
    yearsOfEngagement := 1
    endYear := 2026 }

/-- A concrete weekly record used to instantiate the scenario-engine
theorem. -/
noncomputable def demoRec : WeeklyRecord :=
  { week := 5
    year := 2025
    account := "Acme"
    industry := "Retail"
    salesCategory := "New"
    city := "Manila"
    area := "NCR"
    territoryCode := "T01"
    agent := "Cruz"
    status := "Won"
    revenue := 100
    volume := 100
    startMonth := 1
    startYear := 2025
    yearsOfEngagement := 2
    endYear := 2026 }

/-- Concrete scenario options targeting the demo industry with a 20
percent mix shift and unit global multipliers. -/
noncomputable def demoOpts : ScenarioOpts :=
  { revenueMultiplier := 1
    volumeMultiplier := 1
    mixShiftIndustry := some "Retail"
    mixShiftPct := 20 }

/-- A concrete monthly series whose first six months each carry 200
revenue and 200 volume. -/
noncomputable def demoMonthly : List MonthBucket :=
  [⟨1, "January", 200, 200⟩, ⟨2, "February", 200, 200⟩, ⟨3, "March", 200, 200⟩,
   ⟨4, "April", 200, 200⟩, ⟨5, "May", 200, 200⟩, ⟨6, "June", 200, 200⟩]

/-! ### Theorems -/

/-- Every entry of the month-name table carries a month number in
1..12. -/
theorem monthMap_values_range : ∀ p ∈ monthMap, 1 ≤ p.2 ∧ p.2 ≤ 12 := by decide

/-- The month parser always lands in 1..12 provided the current-month
fallback does. -/
theorem parseMonth_range (v : JsVal) (m : ℤ) (h1 : 1 ≤ m) (h2 : m ≤ 12) :
    1 ≤ parseMonthFromText v m ∧ parseMonthFromText v m ≤ 12 := by
  cases v with
  | vStr s =>
      cases hfind : monthMap.find? (fun p => jsIncludes (toLowerStr s) p.1) with
      | some p =>
          have := monthMap_values_range p (List.mem_of_find?_eq_some hfind)
          simp [parseMonthFromText, hfind, this]
      | none =>
          cases hint : parseIntJs s with
          | some num =>
              by_cases hr : 1 ≤ num ∧ num ≤ 12
              · simp [parseMonthFromText, hfind, parseIntOf, hint, hr]
              · simp [parseMonthFromText, hfind, parseIntOf, hint, hr]
                exact ⟨h1, h2⟩
          | none =>
              simp [parseMonthFromText, hfind, parseIntOf, hint]
              exact ⟨h1, h2⟩
  | vNum n =>
      by_cases hr : 1 ≤ n ∧ n ≤ 12
      · simp [parseMonthFromText, parseIntOf, hr]
      · simp [parseMonthFromText, parseIntOf, hr]
        exact ⟨h1, h2⟩

/-- C4 counterexample: with the month cell absent and the current
calendar month equal to 3, the normalizer yields 8 (the parsed default
string August), not the current month as the claim states. -/
theorem startMonth_absent_counterexample :
    startMonthOf none 3 = 8 ∧ startMonthOf none 3 ≠ 3 := by decide

/-- C4 (amended): the normalizer yields a start month in 1..12 by
case-insensitive substring match against month names (August yields
8), else by integer parse in range 1..12; a present but unparseable
cell falls back to the current calendar month, while an absent or
falsy cell is first defaulted to the string August and therefore
yields 8. -/
theorem startMonth_normalization (cell : Option JsVal) (m : ℤ) (s : String)
    (hm1 : 1 ≤ m) (hm2 : m ≤ 12)
    (hname : monthMap.find? (fun p => jsIncludes (toLowerStr s) p.1) = none)
    (hint : parseIntJs s = none) (hs : s ≠ "") :
    (1 ≤ startMonthOf cell m ∧ startMonthOf cell m ≤ 12)
    ∧ startMonthOf (some (JsVal.vStr "August")) m = 8
    ∧ startMonthOf (some (JsVal.vStr "AUGUST")) m = 8
    ∧ startMonthOf none m = 8
    ∧ startMonthOf (some (JsVal.vStr s)) m = m := by
  have hfA : monthMap.find? (fun p => jsIncludes (toLowerStr "August") p.1) = some ("aug", 8) := by
    decide
  have hfA2 : monthMap.find? (fun p => jsIncludes (toLowerStr "AUGUST") p.1) = some ("aug", 8) := by
    decide
  have hb : s.isEmpty = false := by
    rw [Bool.eq_false_iff]
    intro h
    exact hs ((String.isEmpty_iff s).mp h)
  have htr : forecastedStartOf (some (JsVal.vStr s)) = JsVal.vStr s := by
    simp [forecastedStartOf, jsTruthy, hb]
  refine ⟨parseMonth_range _ m hm1 hm2, ?_, ?_, ?_, ?_⟩
  · show parseMonthFromText (forecastedStartOf (some (JsVal.vStr "August"))) m = 8
    have : forecastedStartOf (some (JsVal.vStr "August")) = JsVal.vStr "August" := by decide
    rw [this]
    simp [parseMonthFromText, hfA]
  · show parseMonthFromText (forecastedStartOf (some (JsVal.vStr "AUGUST"))) m = 8
    have : forecastedStartOf (some (JsVal.vStr "AUGUST")) = JsVal.vStr "AUGUST" := by decide
    rw [this]
    simp [parseMonthFromText, hfA2]
  · show parseMonthFromText (forecastedStartOf none) m = 8
    have : forecastedStartOf none = JsVal.vStr "August" := by decide
    rw [this]
    simp [parseMonthFromText, hfA]
  · show parseMonthFromText (forecastedStartOf (some (JsVal.vStr s))) m = m
    rw [htr]
    simp [parseMonthFromText, hname, parseIntOf, hint]

/-- C4 witness: concrete instances of the amended normalization
behavior. -/
theorem startMonth_normalization_check :
    (1 ≤ startMonthOf none 5 ∧ startMonthOf none 5 ≤ 12)
    ∧ startMonthOf (some (JsVal.vStr "August")) 5 = 8
    ∧ startMonthOf (some (JsVal.vStr "AUGUST")) 5 = 8
    ∧ startMonthOf none 5 = 8
    ∧ startMonthOf (some (JsVal.vStr "zzz")) 5 = 5 :=
  startMonth_normalization none 5 "zzz" (by norm_num) (by norm_num)
    (by decide) (by decide) (by decide)

/-- C5 counterexample: the claimed case-insensitive matcher counts
Account Name as matched for the upper-cased header list, yet the
richer resolver rejects carrying an empty matched list; and in the
second variant four canonical headers match case-insensitively (at or
above the threshold 3), yet the resolver rejects, and its error does
not carry the available header list. -/
theorem columnResolver_counterexample :
    specFoundColumnsCI mappedColumns1 ["ACCOUNT NAME"] = ["Account Name"]
    ∧ resolveColumns1 ["ACCOUNT NAME"] = .error ([], ["ACCOUNT NAME"])
    ∧ specFoundColumnsCI mappedColumns2 ["account name", "industry", "area", "sales rep"] =
        ["Account Name", "Industry", "Area", "Sales Rep", "Monthly Sales Report Prep"]
    ∧ resolveColumns2 ["account name", "industry", "area", "sales rep"] = .error [] :=
  ⟨by decide, rfl, by decide, rfl⟩

/-- C5 (amended): header matching is case-sensitive.  In the richer
variant a canonical header matches when some present header contains
it or it contains that header (threshold 2, error carrying matched and
available headers); in the second variant a canonical header matches
only by exact equality with a present header (threshold 3, error
carrying only the matched headers).  Below the threshold resolution
fails with the InsufficientColumns rejection, at or above it the
resolver accepts. -/
theorem columnResolver_insufficient (fileColumns : List String) :
    ((foundColumns1 fileColumns).length < 2 →
        resolveColumns1 fileColumns = .error (foundColumns1 fileColumns, fileColumns))
    ∧ (2 ≤ (foundColumns1 fileColumns).length → resolveColumns1 fileColumns = .ok ())
    ∧ ((foundColumns2 fileColumns).length < 3 →
        resolveColumns2 fileColumns = .error (foundColumns2 fileColumns))
    ∧ (3 ≤ (foundColumns2 fileColumns).length → resolveColumns2 fileColumns = .ok ()) := by
  unfold resolveColumns1 resolveColumns2
  exact ⟨fun h => if_pos h, fun h => if_neg (by omega),
         fun h => if_pos h, fun h => if_neg (by omega)⟩

/-- C5 witness: a workbook exposing a single unknown header is
rejected by both resolver variants with their respective
diagnostics. -/
theorem columnResolver_insufficient_check :
    resolveColumns1 ["Foo"] = .error (foundColumns1 ["Foo"], ["Foo"])
    ∧ resolveColumns2 ["Foo"] = .error (foundColumns2 ["Foo"]) :=
  ⟨(columnResolver_insufficient ["Foo"]).1 (by decide),
   (columnResolver_insufficient ["Foo"]).2.2.1 (by decide)⟩

/-- The weekly expansion has one record per account and week. -/
theorem expandAll_length (accs : List AccountData) :
    (expandAll accs).length = 52 * accs.length := by
  unfold expandAll
  rw [List.length_flatten, List.map_map]
  have hmap : (List.range' 1 52).map (List.length ∘ fun w => accs.map (fun acc => weeklyFor acc w))
      = (List.range' 1 52).map (fun _ => accs.length) := by
    apply List.map_congr_left
    intro w _
    simp
  rw [hmap, List.map_const', List.sum_replicate]
  simp [List.length_range']

/-- Membership characterization of the expanded collection. -/
theorem mem_expandAll (accs : List AccountData) (r : WeeklyRecord) :
    r ∈ expandAll accs ↔ ∃ w ∈ List.range' 1 52, ∃ acc ∈ accs, weeklyFor acc w = r := by
  simp [expandAll, List.mem_flatten, List.mem_map]

/-- C1: for every normalized account and week index in 1..52 the
temporal expander emits a record of the canonical dataset whose
revenue and volume are the monthly figures smoothed by 4.345 and
modulated by the fixed sinusoid when the week contributes — the
contribution test being exactly the window of the claim, with the
record year pinned to the account start year — and zero otherwise. -/
theorem temporalExpander_weekly_formula (accs : List AccountData) (acc : AccountData)
    (w : ℕ) (hacc : acc ∈ accs) (h1 : 1 ≤ w) (h2 : w ≤ 52) :
    weeklyFor acc w ∈ expandAll accs
    ∧ (weeklyFor acc w).revenue =
        (if ((weeklyFor acc w).year > acc.startYear
              ∨ ((weeklyFor acc w).year = acc.startYear ∧ weekMonth w ≥ acc.startMonth))
            ∧ (weeklyFor acc w).year ≤ acc.endYear
          then acc.monthlyRevenue / 4.345 * (1 + 0.12 * Real.sin (2 * Real.pi * w / 52))
          else 0)
    ∧ (weeklyFor acc w).volume =
        (if ((weeklyFor acc w).year > acc.startYear
              ∨ ((weeklyFor acc w).year = acc.startYear ∧ weekMonth w ≥ acc.startMonth))
            ∧ (weeklyFor acc w).year ≤ acc.endYear
          then acc.monthlyVolume / 4.345 * (1 + 0.12 * Real.sin (2 * Real.pi * w / 52))
          else 0) := by
  have hy : (weeklyFor acc w).year = acc.startYear := rfl
  have hcond : (((weeklyFor acc w).year > acc.startYear
        ∨ ((weeklyFor acc w).year = acc.startYear ∧ weekMonth w ≥ acc.startMonth))
        ∧ (weeklyFor acc w).year ≤ acc.endYear)
      ↔ (weekMonth w ≥ acc.startMonth ∧ acc.startYear ≤ acc.endYear) := by
    rw [hy]
    constructor
    · rintro ⟨hgt | ⟨-, hmo⟩, hend⟩
      · exact absurd hgt (lt_irrefl _)
      · exact ⟨hmo, hend⟩
    · rintro ⟨hmo, hend⟩
      exact ⟨Or.inr ⟨rfl, hmo⟩, hend⟩
  refine ⟨?_, ?_, ?_⟩
  · exact (mem_expandAll accs _).mpr
      ⟨w, List.mem_range'.mpr ⟨w - 1, by omega, by omega⟩, acc, hacc, rfl⟩
  · rw [show (weeklyFor acc w).revenue
        = (if weekMonth w ≥ acc.startMonth ∧ acc.startYear ≤ acc.endYear
            then acc.monthlyRevenue / 4.345 * seasonalFactor w else 0) from rfl]
    rw [if_congr hcond.symm rfl rfl]
    rfl
  · rw [show (weeklyFor acc w).volume
        = (if weekMonth w ≥ acc.startMonth ∧ acc.startYear ≤ acc.endYear
            then acc.monthlyVolume / 4.345 * seasonalFactor w else 0) from rfl]
    rw [if_congr hcond.symm rfl rfl]
    rfl

/-- C1 witness: the demo account contributes at week 5 (month 2 of
the start year, inside the window), so the emitted revenue is exactly
the smoothed seasonal figure. -/
theorem temporalExpander_weekly_formula_check :
    (weeklyFor demoAcc 5).revenue
      = demoAcc.monthlyRevenue / 4.345 * (1 + 0.12 * Real.sin (2 * Real.pi * (5 : ℕ) / 52)) := by
  have h := (temporalExpander_weekly_formula [demoAcc] demoAcc 5
    (List.mem_singleton.mpr rfl) (by norm_num) (by norm_num)).2.1
  rw [h, if_pos]
  constructor
  · refine Or.inr ⟨rfl, ?_⟩
    have h5 : (0 : ℤ) < weekMonth 5 := by
      unfold weekMonth
      exact Int.lt_ceil.mpr (by norm_num)
    show weekMonth 5 ≥ demoAcc.startMonth
    show weekMonth 5 ≥ 1
    omega
  · show (2025 : ℤ) ≤ 2026
    norm_num

/-- C9: every surviving raw row contributes exactly 52 weekly records
(also when it duplicates an earlier account name, since the normalizer
keeps duplicate rows), so the weekly collection has length 52 times
the number of surviving rows, and the reported `info.totalRows` is
that expanded count. -/
theorem expansion_row_counts (accs : List AccountData) :
    (expandAll accs).length = 52 * accs.length
    ∧ infoTotalRows accs = 52 * accs.length :=
  ⟨expandAll_length accs, expandAll_length accs⟩

/-- The initial value is below a left fold of `max`. -/
theorem le_foldl_max (l : List ℤ) (b : ℤ) : b ≤ l.foldl max b := by
  induction l generalizing b with
  | nil => exact le_refl b
  | cons h t ih => exact le_trans (le_max_left b h) (ih (max b h))

/-- Every member is below a left fold of `max`. -/
theorem mem_le_foldl_max (l : List ℤ) (b : ℤ) (x : ℤ) (hx : x ∈ l) :
    x ≤ l.foldl max b := by
  induction l generalizing b with
  | nil => cases hx
  | cons h t ih =>
      rcases List.mem_cons.mp hx with rfl | hx2
      · exact le_trans (le_max_right b x) (le_foldl_max t (max b x))
      · exact ih (max b h) hx2

/-- A left fold of `max` is the initial value or a member. -/
theorem foldl_max_mem (l : List ℤ) (b : ℤ) :
    l.foldl max b = b ∨ l.foldl max b ∈ l := by
  induction l generalizing b with
  | nil => exact Or.inl rfl
  | cons h t ih =>
      rcases ih (max b h) with heq | hmem
      · rcases max_choice b h with hb | hh
        · exact Or.inl (by rw [List.foldl_cons, heq, hb])
        · exact Or.inr (by rw [List.foldl_cons, heq, hh]; exact List.mem_cons_self _ _)
      · exact Or.inr (List.mem_cons_of_mem h hmem)

/-- Every member is below the JavaScript maximum of the list. -/
theorem le_maxJs (l : List ℤ) (x : ℤ) (hx : x ∈ l) : x ≤ maxJs l := by
  cases l with
  | nil => cases hx
  | cons h t =>
      rcases List.mem_cons.mp hx with rfl | hx
      · exact le_foldl_max t x
      · exact mem_le_foldl_max t h x hx

/-- The JavaScript maximum of a nonempty list is a member. -/
theorem maxJs_mem (l : List ℤ) (hl : l ≠ []) : maxJs l ∈ l := by
  cases l with
  | nil => exact absurd rfl hl
  | cons h t =>
      rcases foldl_max_mem t h with heq | hmem
      · rw [maxJs, heq]; exact List.mem_cons_self _ _
      · exact List.mem_cons_of_mem h hmem

/-- First-occurrence deduplication preserves membership. -/
theorem mem_dedupFirst {α} [DecidableEq α] (l : List α) (a : α) :
    a ∈ dedupFirst l ↔ a ∈ l := by
  induction l using dedupFirst.induct with
  | case1 => simp [dedupFirst]
  | case2 x xs ih =>
      rw [dedupFirst]
      by_cases hax : a = x
      · subst hax
        simp
      · simp only [List.mem_cons, ih, List.mem_filter, decide_eq_true_eq]
        constructor
        · rintro (rfl | ⟨hmem, -⟩)
          · exact Or.inl rfl
          · exact Or.inr hmem
        · rintro (rfl | hmem)
          · exact Or.inl rfl
          · exact Or.inr ⟨hmem, hax⟩

/-- Deduplication of a nonempty list is nonempty. -/
theorem dedupFirst_ne_nil {α} [DecidableEq α] (l : List α) (hl : l ≠ []) :
    dedupFirst l ≠ [] := by
  cases l with
  | nil => exact absurd rfl hl
  | cons x xs =>
      rw [dedupFirst]
      exact List.cons_ne_nil _ _

/-- The JavaScript maximum is invariant under first-occurrence
deduplication. -/
theorem maxJs_dedupFirst (l : List ℤ) (hl : l ≠ []) :
    maxJs (dedupFirst l) = maxJs l := by
  apply le_antisymm
  · exact le_maxJs l _ ((mem_dedupFirst l _).mp (maxJs_mem _ (dedupFirst_ne_nil l hl)))
  · exact le_maxJs _ _ ((mem_dedupFirst l _).mpr (maxJs_mem l hl))

/-- Every record of the expansion carries the start year of its
account as its year. -/
theorem expandAll_year_pinned (accs : List AccountData) :
    ∀ r ∈ expandAll accs, r.year = r.startYear := by
  intro r hr
  rcases (mem_expandAll accs r).mp hr with ⟨w, -, acc, -, rfl⟩
  rfl

/-- C10: every weekly record produced from an uploaded workbook
(richer variant) has its year equal to its account start year — the
52-week series is pinned to the start year, so records of different
accounts may carry different years — and `meta.year` is the maximum
start year over all records. -/
theorem weekly_year_pinned_to_startYear (accs : List AccountData) (hne : accs ≠ []) :
    (∀ r ∈ expandAll accs, r.year = r.startYear)
    ∧ metaYear (expandAll accs) = maxJs ((expandAll accs).map (fun r => r.startYear)) := by
  refine ⟨expandAll_year_pinned accs, ?_⟩
  have hmaps : (expandAll accs).map (fun r => r.year)
      = (expandAll accs).map (fun r => r.startYear) :=
    List.map_congr_left (fun r hr => expandAll_year_pinned accs r hr)
  have hnil : (expandAll accs).map (fun r => r.year) ≠ [] := by
    intro hcontra
    have hlen := congrArg List.length hcontra
    rw [List.length_map, expandAll_length accs] at hlen
    cases accs with
    | nil => exact hne rfl
    | cons a t => simp at hlen
  rw [metaYear, yearsOf, maxJs_dedupFirst _ hnil, hmaps]

/-- C10 witness: with two demo accounts starting in 2025 and 2026, the
meta year of the expansion is the maximum start year over the emitted
records. -/
theorem weekly_year_pinned_to_startYear_check :
    metaYear (expandAll [demoAcc, demoAcc2])
      = maxJs ((expandAll [demoAcc, demoAcc2]).map (fun r => r.startYear)) :=
  (weekly_year_pinned_to_startYear [demoAcc, demoAcc2] (by simp)).2

/-- Summing a function that is bumped by `a` at exactly one member of
a duplicate-free list adds `a` to the total. -/
theorem sum_map_ite_add (names : List String) (n0 : String) (a : ℝ) (g : String → ℝ)
    (hmem : n0 ∈ names) (hnd : names.Nodup) :
    (names.map (fun n => if n0 = n then a + g n else g n)).sum = a + (names.map g).sum := by
  induction names with
  | nil => cases hmem
  | cons h t ih =>
      rcases List.mem_cons.mp hmem with rfl | hmem2
      · have hnin : n0 ∉ t := (List.nodup_cons.mp hnd).1
        have htail : t.map (fun n => if n0 = n then a + g n else g n) = t.map g :=
          List.map_congr_left (fun n hn => if_neg (fun he => hnin (by rw [he]; exact hn)))
        rw [List.map_cons, if_pos rfl, List.sum_cons, htail, List.map_cons, List.sum_cons]
        ring
      · have hne : n0 ≠ h := fun he => (List.nodup_cons.mp hnd).1 (he ▸ hmem2)
        rw [List.map_cons, if_neg hne, List.sum_cons, List.map_cons, List.sum_cons,
          ih hmem2 (List.nodup_cons.mp hnd).2]
        ring

/-- Partitioning a list by a key ranging over a duplicate-free
covering list of names preserves the total. -/
theorem sum_filter_partition (key : WeeklyRecord → String) (v : WeeklyRecord → ℝ)
    (names : List String) (l : List WeeklyRecord)
    (hnd : names.Nodup) (hcov : ∀ x ∈ l, key x ∈ names) :
    (names.map (fun n => ((l.filter (fun x => decide (key x = n))).map v).sum)).sum
      = (l.map v).sum := by
  induction l with
  | nil => simp
  | cons d t ih =>
      have hcov2 : ∀ x ∈ t, key x ∈ names := fun x hx => hcov x (List.mem_cons_of_mem d hx)
      have hmap : names.map (fun n => (((d :: t).filter (fun x => decide (key x = n))).map v).sum)
          = names.map (fun n =>
              if key d = n then v d + ((t.filter (fun x => decide (key x = n))).map v).sum
              else ((t.filter (fun x => decide (key x = n))).map v).sum) := by
        apply List.map_congr_left
        intro n _
        by_cases h : key d = n
        · simp [List.filter_cons, h]
        · simp [List.filter_cons, h]
      rw [hmap,
        sum_map_ite_add names (key d) (v d) _ (hcov d (List.mem_cons_self d t)) hnd,
        ih hcov2, List.map_cons, List.sum_cons]

/-- The shell names are exactly the account names occurring in the
weekly data. -/
theorem mem_map_name_accountShells (weekly : List WeeklyRecord) (s : String) :
    s ∈ (accountShells weekly).map (fun a => a.name)
      ↔ s ∈ weekly.map (fun d => d.account) := by
  induction weekly using accountShells.induct with
  | case1 => simp [accountShells]
  | case2 d rest ih =>
      rw [accountShells]
      simp only [List.map_cons, List.mem_cons, ih]
      simp only [show (shellOf d).name = d.account from rfl, List.mem_map, List.mem_filter,
        decide_eq_true_eq]
      constructor
      · rintro (rfl | ⟨x, ⟨hx, -⟩, rfl⟩)
        · exact Or.inl rfl
        · exact Or.inr ⟨x, hx, rfl⟩
      · rintro (rfl | ⟨x, hx, rfl⟩)
        · exact Or.inl rfl
        · by_cases hxd : x.account = d.account
          · exact Or.inl hxd
          · exact Or.inr ⟨x, ⟨hx, hxd⟩, rfl⟩

/-- The first-occurrence account map yields pairwise distinct
names. -/
theorem accountShells_names_nodup (weekly : List WeeklyRecord) :
    ((accountShells weekly).map (fun a => a.name)).Nodup := by
  induction weekly using accountShells.induct with
  | case1 => simp [accountShells]
  | case2 d rest ih =>
      rw [accountShells, List.map_cons]
      refine List.nodup_cons.mpr ⟨?_, ih⟩
      intro hmem
      rw [mem_map_name_accountShells] at hmem
      rcases List.mem_map.mp hmem with ⟨x, hx, hxa⟩
      rcases List.mem_filter.mp hx with ⟨-, hne⟩
      rw [decide_eq_true_eq] at hne
      exact hne hxa

/-- Sums over an enumerated list ignore the indices. -/
theorem map_enumFrom_snd_sum {α : Type} (g : α → ℝ) (l : List α) :
    ∀ n, ((List.enumFrom n l).map (fun p => g p.2)).sum = (l.map g).sum := by
  induction l with
  | nil => intro n; rfl
  | cons h t ih =>
      intro n
      simp only [List.enumFrom, List.map_cons, List.sum_cons, ih]

/-- The derived base revenues of the rebuilt accounts absorb the whole
weekly revenue. -/
theorem buildAccounts_sum_rev (weekly : List WeeklyRecord) :
    ((buildAccounts weekly).map (fun a => a.baseRev)).sum
      = (weekly.map (fun d => d.revenue)).sum := by
  unfold buildAccounts
  rw [List.map_map]
  show ((accountShells weekly).enum.map (fun p => sumRevFor weekly p.2.name)).sum = _
  rw [show (accountShells weekly).enum = List.enumFrom 0 (accountShells weekly) from rfl,
    map_enumFrom_snd_sum (fun sh => sumRevFor weekly sh.name) (accountShells weekly) 0]
  have hmm : (((accountShells weekly).map (fun a => a.name)).map
        (fun n => sumRevFor weekly n)).sum
      = ((accountShells weekly).map (fun sh => sumRevFor weekly sh.name)).sum := by
    rw [List.map_map]
    rfl
  rw [← hmm]
  exact sum_filter_partition (fun d => d.account) (fun d => d.revenue) _ weekly
    (accountShells_names_nodup weekly)
    (fun x hx => (mem_map_name_accountShells weekly x.account).mpr
      (List.mem_map_of_mem _ hx))

/-- The derived base volumes of the rebuilt accounts absorb the whole
weekly volume. -/
theorem buildAccounts_sum_vol (weekly : List WeeklyRecord) :
    ((buildAccounts weekly).map (fun a => a.baseVol)).sum
      = (weekly.map (fun d => d.volume)).sum := by
  unfold buildAccounts
  rw [List.map_map]
  show ((accountShells weekly).enum.map (fun p => sumVolFor weekly p.2.name)).sum = _
  rw [show (accountShells weekly).enum = List.enumFrom 0 (accountShells weekly) from rfl,
    map_enumFrom_snd_sum (fun sh => sumVolFor weekly sh.name) (accountShells weekly) 0]
  have hmm : (((accountShells weekly).map (fun a => a.name)).map
        (fun n => sumVolFor weekly n)).sum
      = ((accountShells weekly).map (fun sh => sumVolFor weekly sh.name)).sum := by
    rw [List.map_map]
    rfl
  rw [← hmm]
  exact sum_filter_partition (fun d => d.account) (fun d => d.volume) _ weekly
    (accountShells_names_nodup weekly)
    (fun x hx => (mem_map_name_accountShells weekly x.account).mpr
      (List.mem_map_of_mem _ hx))

/-- C2: for every parsed workbook the total weekly revenue equals the
total of the derived per-account base revenues, and likewise for
volume, also when several raw rows share one account name — each base
figure is the post-expansion sum of the weekly records bearing that
account name, and the distinct names partition the weekly records. -/
theorem expansion_totals_reconcile (accs : List AccountData) :
    ((buildAccounts (expandAll accs)).map (fun a => a.baseRev)).sum
      = ((expandAll accs).map (fun d => d.revenue)).sum
    ∧ ((buildAccounts (expandAll accs)).map (fun a => a.baseVol)).sum
      = ((expandAll accs).map (fun d => d.volume)).sum :=
  ⟨buildAccounts_sum_rev (expandAll accs), buildAccounts_sum_vol (expandAll accs)⟩

/-- Upserting a contribution adds its revenue to the bucket total. -/
theorem upsert_sum_rev (k : ℕ) (r v : ℝ) (l : List (ℕ × ℝ × ℝ)) :
    ((upsert k r v l).map (fun p => p.2.1)).sum = r + (l.map (fun p => p.2.1)).sum := by
  induction l with
  | nil => simp [upsert]
  | cons h t ih =>
      obtain ⟨hk, hr, hv⟩ := h
      by_cases hkk : hk = k
      · simp [upsert, hkk]
        ring
      · simp [upsert, hkk, ih]
        ring

/-- Upserting a contribution adds its volume to the bucket total. -/
theorem upsert_sum_vol (k : ℕ) (r v : ℝ) (l : List (ℕ × ℝ × ℝ)) :
    ((upsert k r v l).map (fun p => p.2.2)).sum = v + (l.map (fun p => p.2.2)).sum := by
  induction l with
  | nil => simp [upsert]
  | cons h t ih =>
      obtain ⟨hk, hr, hv⟩ := h
      by_cases hkk : hk = k
      · simp [upsert, hkk]
        ring
      · simp [upsert, hkk, ih]
        ring

/-- The keyed bucket fold preserves the revenue total. -/
theorem bucketsBy_sum_rev (keyOf : WeeklyRecord → ℕ) (data : List WeeklyRecord) :
    ((bucketsBy keyOf data).map (fun p => p.2.1)).sum
      = (data.map (fun d => d.revenue)).sum := by
  have hgen : ∀ init : List (ℕ × ℝ × ℝ),
      ((data.foldl (fun acc d => upsert (keyOf d) d.revenue d.volume acc) init).map
          (fun p => p.2.1)).sum
        = (init.map (fun p => p.2.1)).sum + (data.map (fun d => d.revenue)).sum := by
    induction data with
    | nil => intro init; simp
    | cons d t ih =>
        intro init
        rw [List.foldl_cons, ih (upsert (keyOf d) d.revenue d.volume init),
          upsert_sum_rev, List.map_cons, List.sum_cons]
        ring
  have := hgen []
  simpa [bucketsBy] using this

/-- The keyed bucket fold preserves the volume total. -/
theorem bucketsBy_sum_vol (keyOf : WeeklyRecord → ℕ) (data : List WeeklyRecord) :
    ((bucketsBy keyOf data).map (fun p => p.2.2)).sum
      = (data.map (fun d => d.volume)).sum := by
  have hgen : ∀ init : List (ℕ × ℝ × ℝ),
      ((data.foldl (fun acc d => upsert (keyOf d) d.revenue d.volume acc) init).map
          (fun p => p.2.2)).sum
        = (init.map (fun p => p.2.2)).sum + (data.map (fun d => d.volume)).sum := by
    induction data with
    | nil => intro init; simp
    | cons d t ih =>
        intro init
        rw [List.foldl_cons, ih (upsert (keyOf d) d.revenue d.volume init),
          upsert_sum_vol, List.map_cons, List.sum_cons]
        ring
  have := hgen []
  simpa [bucketsBy] using this

/-- Sorting does not change a mapped total. -/
theorem mergeSort_map_sum {α : Type} (le : α → α → Bool) (f : α → ℝ) (l : List α) :
    ((l.mergeSort le).map f).sum = (l.map f).sum :=
  ((List.mergeSort_perm l le).map f).sum_eq

/-- C3: for every weekly-record collection and every granularity
(Weekly, Monthly, Yearly), the total revenue over the buckets produced
by the time aggregation equals the total revenue of the input records,
and likewise for volume. -/
theorem aggregation_sum_preserving (data : List WeeklyRecord) :
    ((aggregateWeekly data).map (fun b => b.revenue)).sum
        = (data.map (fun d => d.revenue)).sum
    ∧ ((aggregateWeekly data).map (fun b => b.volume)).sum
        = (data.map (fun d => d.volume)).sum
    ∧ ((aggregateMonthly data).map (fun b => b.revenue)).sum
        = (data.map (fun d => d.revenue)).sum
    ∧ ((aggregateMonthly data).map (fun b => b.volume)).sum
        = (data.map (fun d => d.volume)).sum
    ∧ ((aggregateYearly data).map (fun b => b.revenue)).sum
        = (data.map (fun d => d.revenue)).sum
    ∧ ((aggregateYearly data).map (fun b => b.volume)).sum
        = (data.map (fun d => d.volume)).sum := by
  refine ⟨?_, ?_, ?_, ?_, ?_, ?_⟩
  · rw [aggregateWeekly, mergeSort_map_sum, List.map_map]
    exact bucketsBy_sum_rev (fun d => d.week) data
  · rw [aggregateWeekly, mergeSort_map_sum, List.map_map]
    exact bucketsBy_sum_vol (fun d => d.week) data
  · rw [aggregateMonthly, mergeSort_map_sum, List.map_map]
    exact bucketsBy_sum_rev (fun d => weeklyToMonth d.week) data
  · rw [aggregateMonthly, mergeSort_map_sum, List.map_map]
    exact bucketsBy_sum_vol (fun d => weeklyToMonth d.week) data
  · simp [aggregateYearly]
  · simp [aggregateYearly]

/-- C6: with a set mix-shift industry matching the record, the
scenario engine multiplies revenue by an extra `1 + pct/100` and
volume by an extra `1 + 0.6*pct/100` on top of the global multipliers;
at twenty percent and unit multipliers the factors are exactly 1.20
and 1.12. -/
theorem scenario_mixShift (opts : ScenarioOpts) (d : WeeklyRecord) (s : String)
    (h1 : opts.mixShiftIndustry = some s) (h2 : s ≠ "") (h3 : d.industry = s) :
    applyScenario [d] opts = [scenarioRecord opts d]
    ∧ (scenarioRecord opts d).revenue
        = d.revenue * opts.revenueMultiplier * (1 + opts.mixShiftPct / 100)
    ∧ (scenarioRecord opts d).volume
        = d.volume * opts.volumeMultiplier * (1 + 0.6 * opts.mixShiftPct / 100)
    ∧ (opts.mixShiftPct = 20 → opts.revenueMultiplier = 1 → opts.volumeMultiplier = 1 →
        (scenarioRecord opts d).revenue = d.revenue * 1.20
        ∧ (scenarioRecord opts d).volume = d.volume * 1.12) := by
  have hrec : scenarioRecord opts d =
      { d with
        revenue := d.revenue * opts.revenueMultiplier * (1 + opts.mixShiftPct / 100),
        volume := d.volume * opts.volumeMultiplier * (1 + opts.mixShiftPct * 0.6 / 100) } := by
    simp only [scenarioRecord, h1]
    rw [if_pos ⟨h2, h3⟩]
  refine ⟨rfl, ?_, ?_, ?_⟩
  · rw [hrec]
  · rw [hrec]
    show d.volume * opts.volumeMultiplier * (1 + opts.mixShiftPct * 0.6 / 100)
      = d.volume * opts.volumeMultiplier * (1 + 0.6 * opts.mixShiftPct / 100)
    ring
  · intro hp hr hv
    rw [hrec, hp, hr, hv]
    constructor
    · show d.revenue * 1 * (1 + (20 : ℝ) / 100) = d.revenue * 1.20
      norm_num
    · show d.volume * 1 * (1 + (20 : ℝ) * 0.6 / 100) = d.volume * 1.12
      norm_num

/-- C6 witness: the demo record in the targeted industry scales by
exactly 1.20 in revenue and 1.12 in volume under a twenty percent mix
shift with unit global multipliers. -/
theorem scenario_mixShift_check :
    (scenarioRecord demoOpts demoRec).revenue = demoRec.revenue * 1.20
    ∧ (scenarioRecord demoOpts demoRec).volume = demoRec.volume * 1.12 :=
  (scenario_mixShift demoOpts demoRec "Retail" rfl (by decide) rfl).2.2.2 rfl rfl rfl

/-- C7: the forecast calculator collapses to YTD at cutoff 12, never
divides by a nonpositive cutoff (average is zero there), and on a
series with YTD 1200 at cutoff 6 with a ten percent adjustment yields
an average of 200 per month and a forecast of 2520; the same formula
applies independently to revenue and volume. -/
theorem forecastCalculator (monthly : List MonthBucket) (adjPct : ℝ) (cutoff : ℤ) :
    (forecastRevenue monthly 12 adjPct = ytdRevenue monthly 12
      ∧ forecastVolume monthly 12 adjPct = ytdVolume monthly 12)
    ∧ (cutoff ≤ 0 → avgPerMonthRev monthly cutoff = 0 ∧ avgPerMonthVol monthly cutoff = 0)
    ∧ (ytdRevenue monthly 6 = 1200 →
        avgPerMonthRev monthly 6 = 200 ∧ forecastRevenue monthly 6 10 = 2520)
    ∧ (ytdVolume monthly 6 = 1200 →
        avgPerMonthVol monthly 6 = 200 ∧ forecastVolume monthly 6 10 = 2520) := by
  refine ⟨⟨?_, ?_⟩, ?_, ?_, ?_⟩
  · unfold forecastRevenue
    norm_num
  · unfold forecastVolume
    norm_num
  · intro hc
    unfold avgPerMonthRev avgPerMonthVol
    rw [if_neg (by omega), if_neg (by omega)]
    exact ⟨rfl, rfl⟩
  · intro h
    have havg : avgPerMonthRev monthly 6 = 200 := by
      unfold avgPerMonthRev
      rw [if_pos (by norm_num), h]
      norm_num
    refine ⟨havg, ?_⟩
    unfold forecastRevenue
    rw [h, havg]
    norm_num
  · intro h
    have havg : avgPerMonthVol monthly 6 = 200 := by
      unfold avgPerMonthVol
      rw [if_pos (by norm_num), h]
      norm_num
    refine ⟨havg, ?_⟩
    unfold forecastVolume
    rw [h, havg]
    norm_num

/-- C7 witness: the demo six-month series with 200 per month realizes
the 1200/6/10 example for both revenue and volume, and a nonpositive
cutoff yields a zero average. -/
theorem forecastCalculator_check :
    avgPerMonthRev demoMonthly 6 = 200 ∧ forecastRevenue demoMonthly 6 10 = 2520
    ∧ avgPerMonthVol demoMonthly 6 = 200 ∧ forecastVolume demoMonthly 6 10 = 2520
    ∧ avgPerMonthRev demoMonthly 0 = 0 := by
  have h := forecastCalculator demoMonthly 10 0
  have hr := h.2.2.1 (by norm_num [ytdRevenue, demoMonthly])
  have hv := h.2.2.2 (by norm_num [ytdVolume, demoMonthly])
  have hz := h.2.1 (by norm_num)
  exact ⟨hr.1, hr.2, hv.1, hv.2, hz.1⟩

/-- C8: evidence of the reproducibility defect.  An absent Monthly
Sales Forecast cell is filled from the fallback band scaled by the
`Math.random()` draw, so the produced record depends on the draw: two
runs over identical input bytes that observe draws 0 and one half
yield 500000 and 1500000.  The parse entry point accepts no seed, and
the draw source is not seedable, contradicting same-seed
bit-reproducibility. -/
theorem fallback_depends_on_random_draw :
    monthlyRevenueOf none 0 = 500000
    ∧ monthlyRevenueOf none (1 / 2) = 1500000
    ∧ monthlyRevenueOf none 0 ≠ monthlyRevenueOf none (1 / 2)
    ∧ monthlyVolumeOf none 0 = 50
    ∧ monthlyVolumeOf none (1 / 2) = 300 := by
  refine ⟨?_, ?_, ?_, ?_, ?_⟩ <;> norm_num [monthlyRevenueOf, monthlyVolumeOf]

end SalesPipeline
